import Mathlib

/-!
Verification development for the diarization splitter repository.

The repository cuts a media file into per-speaker clips driven by a CSV
table of `(start, end, speaker)` rows and zips the resulting folder tree.
This file gives a shallow embedding of the pieces of the code that the
specification talks about:

* `models.py` — `DiarizationData.validate`, `ProcessingResult.success_rate`;
* `audio_processor.py` — `AudioProcessor.process_all_segments` and the
  orchestration `AudioProcessingService.process_audio_with_diarization`;
* `video_processor.py` — `VideoProcessor.validate_diarization_data`,
  `VideoProcessor.process_segment` with its driving loop, and
  `VideoProcessor.process_video_file`;
* `file_handler.py` — `FileHandler.create_zip_package`.

Times are modelled as rationals, pandas dataframes as a row-oriented table
with an explicit column list, and filesystem effects as explicit event
logs or path lists.
-/

namespace Diarization

/-- One cell of the parsed CSV table.  pandas keeps numeric columns as
numbers and text columns (the speaker labels) as strings. -/
inductive Cell where
  | num (q : Rat)
  | str (s : String)
deriving DecidableEq, Repr

/-- Row-oriented model of a pandas `DataFrame`: an ordered list of column
names together with the rows, each row holding one cell per column
(positionally). -/
structure DataFrame where
  columns : List String
  rows : List (List Cell)
deriving DecidableEq, Repr

/-- `df.empty` in pandas: the table has no rows. -/
def DataFrame.empty (df : DataFrame) : Bool :=
  df.rows.isEmpty

/-- The message carried by a Python `KeyError` on a missing column. -/
def keyError (c : String) : String :=
  "KeyError: " ++ c

/-- `df[c]`: the column named `c` as a list of cells, or a `KeyError`
when no column has that name. -/
def DataFrame.col (df : DataFrame) (c : String) : Except String (List Cell) :=
  match df.columns.indexOf? c with
  | some i => .ok (df.rows.map (fun r => r.getD i (Cell.str "")))
  | none => .error (keyError c)

/-- Elementwise `cell < 0`; comparing a string cell with a number raises a
`TypeError` in pandas. -/
def Cell.ltZero : Cell → Except String Bool
  | .num a => .ok (decide (a < 0))
  | .str _ => .error "TypeError"

/-- Elementwise `cell ≤ cell`; a string operand raises a `TypeError`. -/
def Cell.leCell : Cell → Cell → Except String Bool
  | .num a, .num b => .ok (decide (a ≤ b))
  | _, _ => .error "TypeError"

/-- `(series < 0).any()` for a column of cells. -/
def anyLtZero : List Cell → Except String Bool
  | [] => .ok false
  | c :: cs => do
    let b ← c.ltZero
    let r ← anyLtZero cs
    .ok (b || r)

/-- `(xs <= ys).any()` for two columns compared elementwise. -/
def anyLePairwise : List Cell → List Cell → Except String Bool
  | [], _ => .ok false
  | _, [] => .ok false
  | x :: xs, y :: ys => do
    let b ← x.leCell y
    let r ← anyLePairwise xs ys
    .ok (b || r)

/-- Error message of `DiarizationData.validate` for missing columns. -/
def missingColumnsMsg (missing : List String) : String :=
  "Missing required columns: " ++ String.intercalate ", " missing

/-- Error message of `DiarizationData.validate` for an empty table. -/
def emptyMsg : String := "CSV file is empty"

/-- Error message of `DiarizationData.validate` for negative times. -/
def negativeTimeMsg : String := "Found negative time values"

/-- Error message of `DiarizationData.validate` for `end <= start` rows. -/
def invalidRangeMsg : String := "Found segments where end time <= start time"

/-- `DiarizationData.validate` from `models.py`.  It accumulates error
strings in a list: the missing-columns check appends and continues, the
empty-table check returns early, then the negative-time check
(`(df[start] < 0).any() or (df[end] < 0).any()`, with Python\x27s
short-circuiting `or`) and the range check (`(df[end] <= df[start]).any()`)
each append and continue.  Indexing a column that is absent raises a
`KeyError`, modelled by the `Except` error channel. -/
def DiarizationData.validate (df : DataFrame) : Except String (List String) := do
  let required := ["start", "end", "speaker"]
  let missing := required.filter (fun c => !(df.columns.contains c))
  let errors : List String := if missing.isEmpty then [] else [missingColumnsMsg missing]
  if df.empty then
    return errors ++ [emptyMsg]
  let startCol ← df.col "start"
  let negStart ← anyLtZero startCol
  let anyNeg ←
    if negStart then
      pure true
    else do
      let endCol ← df.col "end"
      anyLtZero endCol
  let errors := if anyNeg then errors ++ [negativeTimeMsg] else errors
  let endCol ← df.col "end"
  let startAgain ← df.col "start"
  let badRange ← anyLePairwise endCol startAgain
  let errors := if badRange then errors ++ [invalidRangeMsg] else errors
  return errors

/-- `ProcessingResult` from `models.py` (the `zip_data` and
`output_directory` bookkeeping fields are not needed by any claim about
`success_rate`, and the pipeline result is modelled separately). -/
structure ProcessingResult where
  total_segments : Nat
  processed_segments : Nat
  speakers : List String
deriving DecidableEq, Repr

/-- `ProcessingResult.success_rate` from `models.py`: guarded division. -/
def ProcessingResult.success_rate (r : ProcessingResult) : Rat :=
  if r.total_segments = 0 then 0
  else (r.processed_segments : Rat) / (r.total_segments : Rat)

/-- `Series.unique()` in pandas: the distinct elements of a list, keeping
the first occurrence of each, in order.  `seen` accumulates the elements
already emitted. -/
def uniqueFirstAux {α : Type} [DecidableEq α] (seen : List α) : List α → List α
  | [] => []
  | x :: xs =>
    if seen.contains x then uniqueFirstAux seen xs
    else x :: uniqueFirstAux (x :: seen) xs

/-- `df[c].unique().tolist()`: first-occurrence deduplication. -/
def uniqueFirst {α : Type} [DecidableEq α] (l : List α) : List α :=
  uniqueFirstAux [] l

/-- One row of a validated diarization table, as read back by the
processing loops (`float(row[start])`, `float(row[end])`,
`str(row[speaker])`). -/
structure Row where
  start : Rat
  «end» : Rat
  speaker : String
deriving DecidableEq, Repr

/-- Rounding of `100 * q` to the nearest integer, ties to even, as used
by the `:.2f` format specifier.  Computed on the reduced fraction of `q`:
with `n = 100 * q.num` and positive denominator `d`, the floor is the
floor division `n.fdiv d` and the fractional part compares with `1/2` as
`2 * (n - f * d)` compares with `d`. -/
def round2 (q : Rat) : Int :=
  let n : Int := q.num * 100
  let d : Int := (q.den : Int)
  let f : Int := Int.fdiv n d
  let r : Int := n - f * d
  if 2 * r < d then f
  else if d < 2 * r then f + 1
  else if f % 2 = 0 then f else f + 1

/-- Two-digit zero-padded decimal rendering of a value below 100. -/
def pad2 (n : Nat) : String :=
  if n < 10 then "0" ++ toString n else toString n

/-- The Python format `f"\x7bq:.2f\x7d"`: fixed-point with two decimals. -/
def format2 (q : Rat) : String :=
  let n := round2 q
  if n < 0 then
    "-" ++ toString ((-n) / 100) ++ "." ++ pad2 ((-n) % 100).toNat
  else
    toString (n / 100) ++ "." ++ pad2 (n % 100).toNat

/-- `AudioSegment.segment_id` from `models.py`:
`f"\x7bstart:.2f\x7d_\x7bend:.2f\x7d"`. -/
def AudioSegment.segment_id (r : Row) : String :=
  format2 r.start ++ "_" ++ format2 r.«end»

/-- The output file name the audio pipeline writes for one row:
`f"segment_\x7bsegment_id\x7d.wav"`. -/
def AudioProcessor.output_filename (r : Row) : String :=
  "segment_" ++ AudioSegment.segment_id r ++ ".wav"

/-- The output path of one row relative to the output directory, as the
pair (speaker folder, file name) joined by `os.path.join`. -/
def AudioProcessor.output_path (r : Row) : String × String :=
  (r.speaker, AudioProcessor.output_filename r)

/-- `if progress_callback: progress_callback(processed, total, speaker)`
— applies the optional observer to its own state, or leaves the state
unchanged when no observer was supplied. -/
def applyCb {σ : Type} (cb : Option (Nat → Nat → String → σ → σ))
    (c t : Nat) (sp : String) (s : σ) : σ :=
  match cb with
  | some f => f c t sp s
  | none => s

/-- The row loop of `AudioProcessor.process_all_segments`.  The state `σ`
threads an arbitrary progress callback: when `cb` is present it is applied
after each successful write to `(processed_segments, total_segments,
speaker)`, mirroring `if progress_callback: progress_callback(...)`.
Returns the final count, the writes in order, and the callback state.
A row with `end > duration` stops the loop (`break`). -/
def AudioProcessor.loop {σ : Type} (duration : Rat) (total : Nat)
    (cb : Option (Nat → Nat → String → σ → σ)) :
    List Row → Nat → σ → Nat × List (String × String) × σ
  | [], processed, s => (processed, [], s)
  | r :: rs, processed, s =>
    if r.«end» > duration then (processed, [], s)
    else
      let w := AudioProcessor.output_path r
      let processed1 := processed + 1
      let s1 := applyCb cb processed1 total r.speaker s
      let rest := AudioProcessor.loop duration total cb rs processed1 s1
      (rest.1, w :: rest.2.1, rest.2.2)

/-- The outcome of one audio pipeline run: the returned
`ProcessingResult`, the write events in order, the created speaker
directories, and the final callback state. -/
structure PipelineRun (σ : Type) where
  result : ProcessingResult
  writes : List (String × String)
  speakerDirs : List String
  cbState : σ
deriving Repr

/-- `AudioProcessor.process_all_segments` from `audio_processor.py`:
creates one directory per unique speaker, then runs the row loop with
`processed_segments` starting at 0, and returns the result built from
`total_segments`, the final count and the unique speakers. -/
def AudioProcessor.process_all_segments {σ : Type} (duration : Rat) (rows : List Row)
    (cb : Option (Nat → Nat → String → σ → σ)) (s0 : σ) : PipelineRun σ :=
  let speakers := uniqueFirst (rows.map Row.speaker)
  let total := rows.length
  let out := AudioProcessor.loop duration total cb rows 0 s0
  { result := ⟨total, out.1, speakers⟩
    writes := out.2.1
    speakerDirs := speakers
    cbState := out.2.2 }

/-- The output path `os.path.join(output_dir, speaker, out_name)` with
`out_name = f"segment_\x7bstart:.2f\x7d_\x7bend:.2f\x7d.mp4"` of the video
pipeline, relative to the output directory. -/
def VideoProcessor.output_path (r : Row) : String × String :=
  (r.speaker, "segment_" ++ format2 r.start ++ "_" ++ format2 r.«end» ++ ".mp4")

/-- `VideoProcessor.process_segment` from `video_processor.py`: a row
whose `end` exceeds the video duration returns `False` (skipped, nothing
written); otherwise the clip is written under
`speaker/segment_\x7bstart:.2f\x7d_\x7bend:.2f\x7d.mp4` and the call
returns `True`. -/
def VideoProcessor.process_segment (duration : Rat) (r : Row) :
    Bool × Option (String × String) :=
  if r.«end» > duration then (false, none)
  else (true, some (VideoProcessor.output_path r))

/-- The row loop of `VideoProcessor.process_video_file`: every row is
attempted via `process_segment`; `processed_segments` counts the calls
that returned `True`.  There is no `break` — a skipped row does not stop
the iteration. -/
def VideoProcessor.segmentLoop (duration : Rat) : List Row → Nat × List (String × String)
  | [] => (0, [])
  | r :: rs =>
    let step := VideoProcessor.process_segment duration r
    let rest := VideoProcessor.segmentLoop duration rs
    ((if step.1 then rest.1 + 1 else rest.1),
     match step.2 with
     | some w => w :: rest.2
     | none => rest.2)

/-- A directory in the output tree: the regular files it holds directly
and its named subdirectories, both in directory-listing order. -/
inductive FSTree where
  | node : List String → List (String × FSTree) → FSTree
deriving Repr

/-- The regular files sitting directly in the directory. -/
def FSTree.files : FSTree → List String
  | .node fs _ => fs

/-- The named subdirectories of the directory. -/
def FSTree.dirs : FSTree → List (String × FSTree)
  | .node _ ds => ds

mutual

/-- `FileHandler.create_zip_package` from `file_handler.py`, restricted to
the archive entry names it produces: `os.walk(source_directory)` visits the
root first (emitting its regular files) and then descends into each
subdirectory in listing order, and each file is written into the zip under
`os.path.relpath(file_path, source_directory)` — modelled as the list of
path components relative to the walked root. -/
def FileHandler.create_zip_package : FSTree → List (List String)
  | .node fs ds =>
    fs.map (fun f => [f]) ++ FileHandler.zipDirs ds

/-- The part of the walk below a list of named subdirectories: each entry
of a subdirectory `d` is prefixed with the component `d`. -/
def FileHandler.zipDirs : List (String × FSTree) → List (List String)
  | [] => []
  | (d, t) :: rest =>
    (FileHandler.create_zip_package t).map (fun e => d :: e) ++ FileHandler.zipDirs rest

end

/-- `t` has a regular file at the relative path `p` (path components). -/
inductive FSTree.HasFile : FSTree → List String → Prop where
  | here {fs : List String} {ds : List (String × FSTree)} {f : String} :
      f ∈ fs → FSTree.HasFile (.node fs ds) [f]
  | there {fs : List String} {ds : List (String × FSTree)} {d : String}
      {t : FSTree} {p : List String} :
      (d, t) ∈ ds → FSTree.HasFile t p → FSTree.HasFile (.node fs ds) (d :: p)

/-- A well-formed directory: all entry names directly inside a directory
are distinct (as a real filesystem guarantees), recursively. -/
inductive FSTree.WF : FSTree → Prop where
  | node {fs : List String} {ds : List (String × FSTree)} :
      (fs ++ ds.map Prod.fst).Nodup →
      (∀ p ∈ ds, FSTree.WF p.2) →
      FSTree.WF (.node fs ds)

/-- `pd.to_numeric` on one cell: numeric cells pass through and text
cells raise (string time cells occur in no claim; numeric-looking text in
a CSV column has already been parsed to a number by `pd.read_csv`). -/
def Cell.toNumeric : Cell → Except String Rat
  | .num q => .ok q
  | .str _ => .error "ValueError"

/-- `pd.to_numeric` over a whole column. -/
def toNumericList : List Cell → Except String (List Rat)
  | [] => .ok []
  | c :: cs => do
    let q ← c.toNumeric
    let r ← toNumericList cs
    .ok (q :: r)

/-- `(xs <= ys).any()` on two numeric columns, elementwise. -/
def anyLeQ : List Rat → List Rat → Bool
  | e :: es, s :: ss => (decide (e ≤ s)) || anyLeQ es ss
  | _, _ => false

/-- `VideoProcessor.validate_diarization_data` from `video_processor.py`:
checks, in order, that the three columns are present (else the
missing-columns message), that `start` and `end` coerce to numbers via
`pd.to_numeric` (else the numeric message), and that no row has
`end <= start` (else the range message).  Unlike
`DiarizationData.validate` it performs no empty-table check and no
negative-time check, and it stops at the first failing check. -/
def VideoProcessor.validate_diarization_data (df : DataFrame) : Bool × String :=
  let required := ["start", "end", "speaker"]
  let missing := required.filter (fun c => !(df.columns.contains c))
  if !missing.isEmpty then (false, missingColumnsMsg missing)
  else
    match (do
      let s ← df.col "start"
      let sN ← toNumericList s
      let e ← df.col "end"
      let eN ← toNumericList e
      pure (sN, eN) : Except String (List Rat × List Rat)) with
    | .error _ => (false, "Start and end times must be numeric values")
    | .ok (sN, eN) =>
      if anyLeQ eN sN then (false, "End time must be greater than start time")
      else (true, "Data validation successful")

/-- `float(cell)` as applied to the `start`/`end` cells of one row. -/
def Cell.toFloat : Cell → Except String Rat
  | .num q => .ok q
  | .str _ => .error "ValueError"

/-- `str(cell)` as applied to the `speaker` cell of one row.  Numeric
speaker labels are rendered by Python\x27s `str`; the exact rendering of a
number is irrelevant to every claim below, so the two-decimal rendering
stands in for it. -/
def Cell.toText : Cell → String
  | .str s => s
  | .num q => format2 q

/-- Zips the three columns into `Row`s, as `iterrows` plus the
`float`/`str` conversions do.  A ragged frame never arises from a parsed
CSV, so the trailing cases are inert. -/
def rowsOf : List Cell → List Cell → List Cell → Except String (List Row)
  | s :: ss, e :: es, sp :: sps => do
    let a ← s.toFloat
    let b ← e.toFloat
    let r ← rowsOf ss es sps
    .ok (⟨a, b, sp.toText⟩ :: r)
  | _, _, _ => .ok []

/-- The rows of the table as read back by the processing loops. -/
def DataFrame.toRows (df : DataFrame) : Except String (List Row) := do
  let starts ← df.col "start"
  let ends ← df.col "end"
  let speakers ← df.col "speaker"
  rowsOf starts ends speakers

/-- The externally visible steps of one batch run, in execution order. -/
inductive Ev where
  | saveMedia
  | parseCsv
  | openMedia
  | makeOutputDir
  | writeSegment
  | createZip
  | cleanup
  | removeTempDir
  | closeVideo
deriving DecidableEq, Repr

/-- Outcome of one orchestration run: the ordered step events and either
the returned result or the propagated exception message. -/
structure ServiceRun where
  events : List Ev
  outcome : Except String ProcessingResult
deriving Repr

/-- The `try` body of
`AudioProcessingService.process_audio_with_diarization` from
`audio_processor.py`: save the uploaded audio, parse the CSV, validate
(raising `ValueError` on a non-empty error list, and propagating the
`KeyError`/`TypeError` that `validate` itself may raise), then load the
audio, create the output directory, run the segment loop and zip the
result.  `csvOk` and `audioLoadOk` stand for the success of the two
external I/O steps. -/
def AudioProcessingService.tryBody (csvOk : Bool) (df : DataFrame)
    (audioLoadOk : Bool) (duration : Rat) : ServiceRun :=
  let ev0 := [Ev.saveMedia]
  if !csvOk then
    { events := ev0 ++ [Ev.parseCsv], outcome := .error "Failed to read CSV file" }
  else
    let ev1 := ev0 ++ [Ev.parseCsv]
    match DiarizationData.validate df with
    | .error e => { events := ev1, outcome := .error e }
    | .ok errs =>
      if !errs.isEmpty then
        { events := ev1
          outcome := .error ("Invalid diarization data: " ++ String.intercalate "; " errs) }
      else if !audioLoadOk then
        { events := ev1 ++ [Ev.openMedia], outcome := .error "audio could not be loaded" }
      else
        let ev2 := ev1 ++ [Ev.openMedia, Ev.makeOutputDir]
        match df.toRows with
        | .error e => { events := ev2, outcome := .error e }
        | .ok rows =>
          let run := AudioProcessor.process_all_segments duration rows
            (none : Option (Nat → Nat → String → Unit → Unit)) ()
          { events := ev2
              ++ List.replicate run.result.processed_segments Ev.writeSegment
              ++ [Ev.createZip]
            outcome := .ok run.result }

/-- `AudioProcessingService.process_audio_with_diarization`: the `try`
body wrapped in `except Exception: cleanup(); raise` — the temporary
directory is removed when any step raises, and only then; the successful
return performs no cleanup (the separate `cleanup()` method exists for the
caller). -/
def AudioProcessingService.process_audio_with_diarization (csvOk : Bool)
    (df : DataFrame) (audioLoadOk : Bool) (duration : Rat) : ServiceRun :=
  match (AudioProcessingService.tryBody csvOk df audioLoadOk duration).outcome with
  | .error e =>
    { events := (AudioProcessingService.tryBody csvOk df audioLoadOk duration).events
        ++ [Ev.cleanup]
      outcome := .error e }
  | .ok r =>
    { events := (AudioProcessingService.tryBody csvOk df audioLoadOk duration).events
      outcome := .ok r }

/-- `VideoProcessor.process_video_file` from `video_processor.py`: inside
`with tempfile.TemporaryDirectory()`, save the two uploads, **load the
video first**, then parse and validate the CSV, create the output
structure, attempt every row (`process_segment` skips out-of-range rows
and the loop does not break), zip, and return success.  Leaving the `with`
removes the temporary directory on every path, and the `finally` closes
the video; the returned flag is `True` only on full success.  The zip and
read-back steps of the source never fail in this effect-free model. -/
def VideoProcessor.process_video_file (csvOk : Bool) (df : DataFrame)
    (videoLoadOk : Bool) (duration : Rat) : List Ev × Bool :=
  let epilogue := [Ev.removeTempDir, Ev.closeVideo]
  let ev0 := [Ev.saveMedia, Ev.openMedia]
  if !videoLoadOk then (ev0 ++ epilogue, false)
  else if !csvOk then (ev0 ++ [Ev.parseCsv] ++ epilogue, false)
  else
    let ev1 := ev0 ++ [Ev.parseCsv]
    if !(VideoProcessor.validate_diarization_data df).1 then (ev1 ++ epilogue, false)
    else
      match df.toRows with
      | .error _ => (ev1 ++ epilogue, false)
      | .ok rows =>
        let run := VideoProcessor.segmentLoop duration rows
        (ev1 ++ [Ev.makeOutputDir]
          ++ List.replicate run.2.length Ev.writeSegment
          ++ [Ev.createZip] ++ epilogue, true)

/-- Whether a cell is numeric. -/
def Cell.isNum : Cell → Bool
  | .num _ => true
  | .str _ => false

/-- The numeric values of a column (string cells dropped). -/
def nums (cells : List Cell) : List Rat :=
  cells.filterMap (fun c => match c with | .num q => some q | .str _ => none)

/-- The three column names `DiarizationData.validate` requires. -/
def requiredColumns : List String := ["start", "end", "speaker"]

/-- The required columns absent from the table, in required order. -/
def missingList (df : DataFrame) : List String :=
  requiredColumns.filter (fun c => !(df.columns.contains c))

/-- All three required columns are present. -/
def allRequiredPresent (df : DataFrame) : Bool :=
  requiredColumns.all (fun c => df.columns.contains c)

/-- The column, if present, holds only numeric cells (vacuously true for
an absent column).  Time columns of a CSV whose values are all numbers
parse this way. -/
def numericWhenPresent (df : DataFrame) (c : String) : Bool :=
  match df.col c with
  | .ok cells => cells.all Cell.isNum
  | .error _ => true

/-- The numeric time values of a column (empty for an absent column). -/
def timesOf (df : DataFrame) (c : String) : List Rat :=
  match df.col c with
  | .ok cells => nums cells
  | .error _ => []

/-- Some `start` or `end` value is negative (the condition of check 3 of
`DiarizationData.validate`, stated over the numeric values). -/
def negAny (df : DataFrame) : Bool :=
  (timesOf df "start").any (fun q => decide (q < 0)) ||
    (timesOf df "end").any (fun q => decide (q < 0))

/-- Some row has `end <= start` (the condition of check 4 of
`DiarizationData.validate`, stated over the numeric values). -/
def rangeAny (df : DataFrame) : Bool :=
  anyLeQ (timesOf df "end") (timesOf df "start")

/-- The caller-visible failure of `DiarizationData.validate`: either the
returned error list is non-empty, or the call itself raised. -/
def validationFails (df : DataFrame) : Bool :=
  match DiarizationData.validate df with
  | .error _ => true
  | .ok errs => !errs.isEmpty

/-- The 0-indexed position of the first row whose `end` exceeds the
duration, if any — the stop point of the early-stop law. -/
def firstOverIndex (duration : Rat) : List Row → Option Nat
  | [] => none
  | r :: rs =>
    if r.«end» > duration then some 0
    else (firstOverIndex duration rs).map (· + 1)

/-- The `(processed_segments, total_segments, speaker)` progress reports
fired by the audio loop for a run of written rows, when the count starts
at `n`. -/
def progressLog (total : Nat) : List Row → Nat → List (Nat × Nat × String)
  | [], _ => []
  | r :: rs, n => (n + 1, total, r.speaker) :: progressLog total rs (n + 1)

/-- The canonical observing callback: appends each report to a log. -/
def loggingCallback : Nat → Nat → String → List (Nat × Nat × String) → List (Nat × Nat × String) :=
  fun c t sp l => l ++ [(c, t, sp)]

/-- The output directory as it stands after a run: one folder per unique
speaker (created up front by `create_speaker_directories`), each holding
the distinct file names written into it, in first-write order — a second
write to the same path overwrites in place and adds no directory entry. -/
def outputTreeOfRun (speakers : List String) (writes : List (String × String)) : FSTree :=
  .node [] (speakers.map (fun s =>
    (s, FSTree.node (uniqueFirst ((writes.filter (fun w => w.1 == s)).map Prod.snd)) [])))

/-- The archive entry name of a write, relative to the output root. -/
def pathOfWrite (w : String × String) : List String := [w.1, w.2]

/-- One audio pipeline run followed by the archiver: the entry list of
the zip built from the output directory the run leaves behind (steps 4
and 6 of the orchestration). -/
def pipelineArchive {σ : Type} (duration : Rat) (rows : List Row)
    (cb : Option (Nat → Nat → String → σ → σ)) (s0 : σ) : List (List String) :=
  FileHandler.create_zip_package
    (outputTreeOfRun (AudioProcessor.process_all_segments duration rows cb s0).speakerDirs
      (AudioProcessor.process_all_segments duration rows cb s0).writes)

end Diarization

namespace Diarization

theorem col_error_of_not_mem {df : DataFrame} {c : String} (h : c ∉ df.columns) :
    df.col c = .error (keyError c) := by
  unfold DataFrame.col
  have hnone : df.columns.indexOf? c = none := by
    rw [List.indexOf?_eq_none_iff]
    intro x hx hbeq
    have hxc : x = c := by simpa using hbeq
    subst hxc
    exact h hx
  rw [hnone]

theorem col_ok_of_mem {df : DataFrame} {c : String} (h : c ∈ df.columns) :
    ∃ cells, df.col c = .ok cells := by
  unfold DataFrame.col
  cases hidx : df.columns.indexOf? c with
  | some i => exact ⟨_, rfl⟩
  | none =>
    rw [List.indexOf?_eq_none_iff] at hidx
    exact absurd (hidx c h) (by simp)

theorem anyLtZero_numeric {cells : List Cell} (h : cells.all Cell.isNum = true) :
    anyLtZero cells = .ok ((nums cells).any (fun q => decide (q < 0))) := by
  induction cells with
  | nil => rfl
  | cons c cs ih =>
    cases c with
    | num q =>
      simp only [List.all_cons, Bool.and_eq_true] at h
      show (do
        let b ← (Cell.num q).ltZero
        let r ← anyLtZero cs
        pure (b || r) : Except String Bool) = _
      rw [ih h.2]
      simp only [Cell.ltZero, nums, List.filterMap_cons]
      rfl
    | str s => simp [List.all_cons, Cell.isNum] at h

theorem anyLePairwise_numeric {es : List Cell} :
    ∀ {ss : List Cell}, es.all Cell.isNum = true → ss.all Cell.isNum = true →
      anyLePairwise es ss = .ok (anyLeQ (nums es) (nums ss)) := by
  induction es with
  | nil => intro ss _ _; cases ss <;> rfl
  | cons e es ih =>
    intro ss he hs
    cases ss with
    | nil =>
      have h2 : anyLeQ (nums (e :: es)) (nums []) = false := by
        cases nums (e :: es) <;> rfl
      rw [h2]
      rfl
    | cons s ss =>
      cases e with
      | num a =>
        cases s with
        | num b =>
          simp only [List.all_cons, Bool.and_eq_true] at he hs
          show (do
            let v ← (Cell.num a).leCell (Cell.num b)
            let r ← anyLePairwise es ss
            pure (v || r) : Except String Bool) = _
          rw [ih he.2 hs.2]
          simp only [Cell.leCell, nums, List.filterMap_cons, anyLeQ]
          rfl
        | str t => simp [List.all_cons, Cell.isNum] at hs
      | str t => simp [List.all_cons, Cell.isNum] at he

theorem exceptPure_eq_ok {α : Type} (x : α) :
    (pure x : Except String α) = Except.ok x := rfl

theorem exceptBind_ok {α β : Type} (x : α) (f : α → Except String β) :
    (Except.ok x >>= f) = f x := rfl

theorem exceptBind_error {α β : Type} (e : String) (f : α → Except String β) :
    ((Except.error e : Except String α) >>= f) = Except.error e := rfl

theorem numeric_of_col_ok {df : DataFrame} {c : String} {cells : List Cell}
    (hcol : df.col c = .ok cells) (hn : numericWhenPresent df c = true) :
    cells.all Cell.isNum = true := by
  unfold numericWhenPresent at hn
  rw [hcol] at hn
  exact hn

theorem timesOf_col_ok {df : DataFrame} {c : String} {cells : List Cell}
    (hcol : df.col c = .ok cells) : timesOf df c = nums cells := by
  unfold timesOf
  rw [hcol]

/-- Characterization of `DiarizationData.validate` on a non-empty table
whose `start` and `end` columns are present and numeric: the error list
holds the messages of the failed checks, in check order. -/
theorem validate_eq_of_numeric {df : DataFrame}
    (hne : df.rows ≠ [])
    (hs : "start" ∈ df.columns) (he : "end" ∈ df.columns)
    (hsn : numericWhenPresent df "start" = true)
    (hen : numericWhenPresent df "end" = true) :
    DiarizationData.validate df =
      .ok ((if (missingList df).isEmpty then [] else [missingColumnsMsg (missingList df)])
        ++ (if negAny df then [negativeTimeMsg] else [])
        ++ (if rangeAny df then [invalidRangeMsg] else [])) := by
  obtain ⟨sc, hsc⟩ := col_ok_of_mem hs
  obtain ⟨ec, hec⟩ := col_ok_of_mem he
  have hsnum := numeric_of_col_ok hsc hsn
  have henum := numeric_of_col_ok hec hen
  have hempty : df.empty = false := by
    simp [DataFrame.empty, List.isEmpty_iff, hne]
  have hts : timesOf df "start" = nums sc := timesOf_col_ok hsc
  have hte : timesOf df "end" = nums ec := timesOf_col_ok hec
  have hnegAny : negAny df =
      (((nums sc).any fun q => decide (q < 0)) || ((nums ec).any fun q => decide (q < 0))) := by
    unfold negAny
    rw [hts, hte]
  have hrangeAny : rangeAny df = anyLeQ (nums ec) (nums sc) := by
    unfold rangeAny
    rw [hts, hte]
  unfold DiarizationData.validate
  rw [hempty]
  simp only [Bool.false_eq_true, if_false, hsc, hec, exceptBind_ok,
    anyLtZero_numeric hsnum, anyLtZero_numeric henum,
    anyLePairwise_numeric henum hsnum, hnegAny, hrangeAny,
    missingList, requiredColumns]
  cases ha : ((nums sc).any fun q => decide (q < 0)) <;>
    cases hb : ((nums ec).any fun q => decide (q < 0)) <;>
      cases hr : anyLeQ (nums ec) (nums sc) <;>
        by_cases hm :
          (List.filter (fun c => !df.columns.contains c) ["start", "end", "speaker"]).isEmpty <;>
          simp [ha, hb, hr, hm, hsc, hec, exceptBind_ok, exceptPure_eq_ok,
            anyLtZero_numeric hsnum, anyLtZero_numeric henum,
            anyLePairwise_numeric henum hsnum]

/-- Characterization of `DiarizationData.validate` on an empty table:
the empty-table check appends its message and returns early, after the
missing-columns check has (possibly) appended its own. -/
theorem validate_eq_of_empty {df : DataFrame} (hempty : df.rows = []) :
    DiarizationData.validate df =
      .ok ((if (missingList df).isEmpty then [] else [missingColumnsMsg (missingList df)])
        ++ [emptyMsg]) := by
  have he : df.empty = true := by simp [DataFrame.empty, hempty]
  unfold DiarizationData.validate
  rw [he]
  simp only [missingList, requiredColumns, if_true]
  by_cases hm :
      (List.filter (fun c => !df.columns.contains c) ["start", "end", "speaker"]).isEmpty <;>
    simp [hm, exceptPure_eq_ok]

theorem validate_keyerror_start {df : DataFrame} (hne : df.rows ≠ [])
    (hs : "start" ∉ df.columns) :
    DiarizationData.validate df = .error (keyError "start") := by
  have hempty : df.empty = false := by simp [DataFrame.empty, hne]
  unfold DiarizationData.validate
  rw [hempty, col_error_of_not_mem hs]
  simp [exceptBind_error]

theorem validate_keyerror_end {df : DataFrame} (hne : df.rows ≠ [])
    (hs : "start" ∈ df.columns) (he : "end" ∉ df.columns)
    (hsn : numericWhenPresent df "start" = true) :
    DiarizationData.validate df = .error (keyError "end") := by
  have hempty : df.empty = false := by simp [DataFrame.empty, hne]
  obtain ⟨sc, hsc⟩ := col_ok_of_mem hs
  have hsnum := numeric_of_col_ok hsc hsn
  unfold DiarizationData.validate
  rw [hempty]
  simp only [Bool.false_eq_true, if_false, hsc, exceptBind_ok,
    anyLtZero_numeric hsnum, col_error_of_not_mem he]
  cases ha : ((nums sc).any fun q => decide (q < 0)) <;>
    simp [ha, exceptBind_ok, exceptBind_error, exceptPure_eq_ok]

theorem toNumericList_numeric {cells : List Cell} (h : cells.all Cell.isNum = true) :
    toNumericList cells = .ok (nums cells) := by
  induction cells with
  | nil => rfl
  | cons c cs ih =>
    cases c with
    | num q =>
      simp only [List.all_cons, Bool.and_eq_true] at h
      show (do
        let v ← (Cell.num q).toNumeric
        let r ← toNumericList cs
        pure (v :: r) : Except String (List Rat)) = _
      rw [ih h.2]
      simp [Cell.toNumeric, nums, List.filterMap_cons]
      rfl
    | str s => simp [List.all_cons, Cell.isNum] at h

theorem mem_of_missingList_nil {df : DataFrame} (h : missingList df = []) :
    "start" ∈ df.columns ∧ "end" ∈ df.columns ∧ "speaker" ∈ df.columns := by
  simp only [missingList, requiredColumns, List.filter_eq_nil_iff, List.contains,
    List.elem_eq_mem] at h
  refine ⟨?_, ?_, ?_⟩ <;> [skip; skip; skip] <;>
    first
    | simpa using h "start" (by simp)
    | simpa using h "end" (by simp)
    | simpa using h "speaker" (by simp)

theorem missingList_ne_nil_of_not_mem {df : DataFrame} {c : String}
    (hc : c ∈ requiredColumns) (h : c ∉ df.columns) : missingList df ≠ [] := by
  intro hnil
  have : c ∈ missingList df := by
    simp [missingList, List.mem_filter, hc, List.contains, List.elem_eq_mem, h]
  rw [hnil] at this
  exact absurd this (List.not_mem_nil c)

/-- Characterization of `VideoProcessor.validate_diarization_data` on
tables whose time columns (when present) are numeric: it succeeds exactly
when no required column is missing and no row has `end <= start`.  Empty
tables and negative times pass. -/
theorem video_validate_eq {df : DataFrame}
    (hsn : numericWhenPresent df "start" = true)
    (hen : numericWhenPresent df "end" = true) :
    (VideoProcessor.validate_diarization_data df).1 =
      (decide (missingList df = []) && !rangeAny df) := by
  by_cases hm : missingList df = []
  · obtain ⟨hs, he, _⟩ := mem_of_missingList_nil hm
    obtain ⟨sc, hsc⟩ := col_ok_of_mem hs
    obtain ⟨ec, hec⟩ := col_ok_of_mem he
    have hsnum := numeric_of_col_ok hsc hsn
    have henum := numeric_of_col_ok hec hen
    have hrangeAny : rangeAny df = anyLeQ (nums ec) (nums sc) := by
      unfold rangeAny
      rw [timesOf_col_ok hsc, timesOf_col_ok hec]
    have hmiss :
        (List.filter (fun c => !df.columns.contains c) ["start", "end", "speaker"]).isEmpty
          = true := by
      simpa [missingList, requiredColumns, List.isEmpty_iff] using hm
    unfold VideoProcessor.validate_diarization_data
    simp only [hmiss, Bool.not_true, Bool.false_eq_true, if_false, hsc, hec,
      exceptBind_ok, toNumericList_numeric hsnum, toNumericList_numeric henum,
      hrangeAny, hm, decide_True, Bool.true_and]
    cases hr : anyLeQ (nums ec) (nums sc) <;> simp [hr, exceptPure_eq_ok]
  · have hmiss :
        (List.filter (fun c => !df.columns.contains c) ["start", "end", "speaker"]).isEmpty
          = false := by
      rw [List.isEmpty_eq_false_iff_exists_mem]
      exact List.exists_mem_of_ne_nil _ (by exact hm)
    unfold VideoProcessor.validate_diarization_data
    simp only [hmiss]
    simp [hm]

/-- C3, counterexample: the claim says any failing check short-circuits
all subsequent checks, so only the first failing check\x27s error is
reported.  On the one-row table with `start = -1`, `end = -2` both the
negative-time check and the range check fail, and `validate` returns both
messages — not only the first. -/
theorem C3_counterexample :
    DiarizationData.validate
      ⟨["start", "end", "speaker"], [[.num (-1), .num (-2), .str "x"]]⟩ =
      .ok [negativeTimeMsg, invalidRangeMsg] ∧
    [negativeTimeMsg, invalidRangeMsg].length ≠ 1 :=
  ⟨rfl, by decide⟩

/-- C3 (amended): `DiarizationData.validate` performs its checks in the
fixed order (1) required columns, (2) table non-empty, (3) no negative
time, (4) no `end <= start`; only the empty-table check short-circuits
the rest, while the other failing checks append their message and
continue, so the returned error list holds the messages of all failed
checks in check order. -/
theorem C3_check_order (df : DataFrame) :
    (df.rows = [] →
      DiarizationData.validate df =
        .ok ((if (missingList df).isEmpty then [] else [missingColumnsMsg (missingList df)])
          ++ [emptyMsg])) ∧
    (df.rows ≠ [] → "start" ∈ df.columns → "end" ∈ df.columns →
      numericWhenPresent df "start" = true → numericWhenPresent df "end" = true →
      DiarizationData.validate df =
        .ok ((if (missingList df).isEmpty then [] else [missingColumnsMsg (missingList df)])
          ++ (if negAny df then [negativeTimeMsg] else [])
          ++ (if rangeAny df then [invalidRangeMsg] else []))) :=
  ⟨fun h => validate_eq_of_empty h,
   fun h1 h2 h3 h4 h5 => validate_eq_of_numeric h1 h2 h3 h4 h5⟩

/-- Witness for C3: the amended statement instantiated at an empty table
missing its `speaker` column (two errors accumulate) and at the
`(-1, -2, x)` table (negative-time and range messages accumulate in check
order). -/
theorem C3_check_order_witness :
    DiarizationData.validate ⟨["start", "end"], []⟩ =
      .ok [missingColumnsMsg ["speaker"], emptyMsg] ∧
    DiarizationData.validate
      ⟨["start", "end", "speaker"], [[.num (-1), .num (-2), .str "x"]]⟩ =
      .ok [negativeTimeMsg, invalidRangeMsg] :=
  ⟨by
    have h := (C3_check_order ⟨["start", "end"], []⟩).1 rfl
    simpa using h,
   by
    have h := (C3_check_order ⟨["start", "end", "speaker"], [[.num (-1), .num (-2), .str "x"]]⟩).2
      (by decide) (by decide) (by decide) (by rfl) (by rfl)
    simpa using h⟩

/-- C4, counterexample: the claim says validation fails on any table
containing a row with negative `start` or `end`, and on any empty table.
`VideoProcessor.validate_diarization_data` — one of the two validators
the claim covers — accepts the table whose only row is
`(-5, -3, "x")` (negative start) and accepts the empty table. -/
theorem C4_counterexample :
    (VideoProcessor.validate_diarization_data
      ⟨["start", "end", "speaker"], [[.num (-5), .num (-3), .str "x"]]⟩).1 = true ∧
    ((-5 : Rat) < 0) ∧
    (VideoProcessor.validate_diarization_data ⟨["start", "end", "speaker"], []⟩).1 = true :=
  ⟨rfl, by decide, rfl⟩

/-- C4 (amended): restricted to tables whose time columns are numeric,
`DiarizationData.validate` fails (non-empty error list, or a raised
`KeyError`) exactly when a required column is missing, the table is
empty, some time is negative, or some row has `end <= start`; whereas
`VideoProcessor.validate_diarization_data` rejects exactly missing
columns and `end <= start` rows — it accepts empty tables and negative
times. -/
theorem C4_rejects_iff (df : DataFrame)
    (hsn : numericWhenPresent df "start" = true)
    (hen : numericWhenPresent df "end" = true) :
    (validationFails df = true ↔
      missingList df ≠ [] ∨ df.rows = [] ∨ negAny df = true ∨ rangeAny df = true) ∧
    ((VideoProcessor.validate_diarization_data df).1 = false ↔
      missingList df ≠ [] ∨ rangeAny df = true) := by
  constructor
  · by_cases hrows : df.rows = []
    · simp only [validationFails, validate_eq_of_empty hrows, hrows]
      by_cases hm : (missingList df).isEmpty <;> simp [hm]
    · by_cases hs : "start" ∈ df.columns
      · by_cases he : "end" ∈ df.columns
        · have hv := validate_eq_of_numeric hrows hs he hsn hen
          simp only [validationFails, hv, hrows]
          by_cases hm : missingList df = [] <;>
            cases hn : negAny df <;>
              cases hr : rangeAny df <;>
                simp [hm, hn, hr, List.isEmpty_iff]
        · have hv := validate_keyerror_end hrows hs he hsn
          have hne := missingList_ne_nil_of_not_mem (by simp [requiredColumns]) he
          simp [validationFails, hv, hne]
      · have hv := validate_keyerror_start hrows hs
        have hne := missingList_ne_nil_of_not_mem (by simp [requiredColumns]) hs
        simp [validationFails, hv, hne]
  · rw [video_validate_eq hsn hen]
    by_cases hm : missingList df = [] <;> cases hr : rangeAny df <;> simp [hm, hr]

/-- Witness for C4: the amended statement instantiated at the
`(5, 3, "x")` table of the spec\x27s scenario — both validators reject it
through the range disjunct of the iff. -/
theorem C4_rejects_iff_witness :
    validationFails ⟨["start", "end", "speaker"], [[.num 5, .num 3, .str "x"]]⟩ = true ∧
    (VideoProcessor.validate_diarization_data
      ⟨["start", "end", "speaker"], [[.num 5, .num 3, .str "x"]]⟩).1 = false :=
  ⟨(C4_rejects_iff ⟨["start", "end", "speaker"], [[.num 5, .num 3, .str "x"]]⟩
      (by rfl) (by rfl)).1.mpr (Or.inr (Or.inr (Or.inr rfl))),
   (C4_rejects_iff ⟨["start", "end", "speaker"], [[.num 5, .num 3, .str "x"]]⟩
      (by rfl) (by rfl)).2.mpr (Or.inr rfl)⟩

/-- C9: on a non-empty table missing its `start` column, or missing its
`end` column (with a numeric `start` column), `DiarizationData.validate`
does not return the missing-columns error list: the missing-columns check
appends its message and control continues into the time checks, which
index the absent column and raise an uncaught `KeyError`. -/
theorem C9_missing_time_column_raises (df : DataFrame) :
    (df.rows ≠ [] → "start" ∉ df.columns →
      DiarizationData.validate df = .error (keyError "start")) ∧
    (df.rows ≠ [] → "start" ∈ df.columns → "end" ∉ df.columns →
      numericWhenPresent df "start" = true →
      DiarizationData.validate df = .error (keyError "end")) :=
  ⟨fun h1 h2 => validate_keyerror_start h1 h2,
   fun h1 h2 h3 h4 => validate_keyerror_end h1 h2 h3 h4⟩

/-- Witness for C9: a one-row table without `start`, and a one-row table
with `start` but without `end`; both make `validate` raise a `KeyError`
instead of returning its error list. -/
theorem C9_missing_time_column_raises_witness :
    DiarizationData.validate ⟨["end", "speaker"], [[.num 2, .str "x"]]⟩ =
      .error (keyError "start") ∧
    DiarizationData.validate ⟨["start", "speaker"], [[.num 1, .str "x"]]⟩ =
      .error (keyError "end") :=
  ⟨(C9_missing_time_column_raises ⟨["end", "speaker"], [[.num 2, .str "x"]]⟩).1
      (by decide) (by decide),
   (C9_missing_time_column_raises ⟨["start", "speaker"], [[.num 1, .str "x"]]⟩).2
      (by decide) (by decide) (by decide) (by rfl)⟩

/-- C10: `ProcessingResult.success_rate` is total — it returns `0` when
`total_segments = 0` instead of dividing by zero, and otherwise returns
`processed_segments / total_segments` (characterized here by clearing the
denominator). -/
theorem C10_success_rate_guarded (r : ProcessingResult) :
    (r.total_segments = 0 → r.success_rate = 0) ∧
    (r.total_segments ≠ 0 →
      r.success_rate * (r.total_segments : Rat) = (r.processed_segments : Rat)) := by
  constructor
  · intro h
    simp [ProcessingResult.success_rate, h]
  · intro h
    have ht : ((r.total_segments : Nat) : Rat) ≠ 0 := by exact_mod_cast h
    simp only [ProcessingResult.success_rate, h, if_false]
    exact div_mul_cancel₀ _ ht

/-- Witness for C10: a result with no segments has rate `0`; a result of
3 processed out of 4 satisfies `rate * 4 = 3`. -/
theorem C10_success_rate_guarded_witness :
    (ProcessingResult.success_rate ⟨0, 0, []⟩ = 0) ∧
    (ProcessingResult.success_rate ⟨4, 3, []⟩ * ((4 : Nat) : Rat) = ((3 : Nat) : Rat)) :=
  ⟨(C10_success_rate_guarded ⟨0, 0, []⟩).1 rfl,
   (C10_success_rate_guarded ⟨4, 3, []⟩).2 (by decide)⟩

theorem takeWhile_eq_self_of_all {α : Type} {p : α → Bool} :
    ∀ {l : List α}, (∀ x ∈ l, p x = true) → l.takeWhile p = l := by
  intro l
  induction l with
  | nil => intro _; rfl
  | cons a l ih =>
    intro h
    rw [List.takeWhile_cons, h a (by simp)]
    simp [ih (fun x hx => h x (by simp [hx]))]

theorem takeWhile_append_of_over {α : Type} {p : α → Bool} {r : α} (post : List α) :
    ∀ {pre : List α}, (∀ x ∈ pre, p x = true) → p r = false →
      (pre ++ r :: post).takeWhile p = pre := by
  intro pre
  induction pre with
  | nil =>
    intro _ hr
    simp [List.takeWhile_cons, hr]
  | cons a l ih =>
    intro h hr
    rw [List.cons_append, List.takeWhile_cons, h a (by simp)]
    simp [ih (fun x hx => h x (by simp [hx])) hr]

theorem firstOverIndex_append {duration : Rat} {r : Row} (post : List Row) :
    ∀ {pre : List Row}, (∀ x ∈ pre, x.«end» ≤ duration) → r.«end» > duration →
      firstOverIndex duration (pre ++ r :: post) = some pre.length := by
  intro pre
  induction pre with
  | nil =>
    intro _ hr
    simp [firstOverIndex, hr]
  | cons a l ih =>
    intro h hr
    have ha : ¬(a.«end» > duration) := not_lt.mpr (h a (by simp))
    rw [List.cons_append]
    simp only [firstOverIndex, ha, if_false, ih (fun x hx => h x (by simp [hx])) hr]
    rfl

/-- The audio row loop computed in closed form: it processes exactly the
longest in-range prefix, whatever the callback is. -/
theorem loop_characterize {σ : Type} (duration : Rat) (total : Nat)
    (cb : Option (Nat → Nat → String → σ → σ)) :
    ∀ (rows : List Row) (n : Nat) (s : σ),
      (AudioProcessor.loop duration total cb rows n s).1 =
        n + (rows.takeWhile (fun r => !(r.«end» > duration))).length ∧
      (AudioProcessor.loop duration total cb rows n s).2.1 =
        (rows.takeWhile (fun r => !(r.«end» > duration))).map AudioProcessor.output_path := by
  intro rows
  induction rows with
  | nil => intro n s; simp [AudioProcessor.loop]
  | cons r rs ih =>
    intro n s
    by_cases h : r.«end» > duration
    · simp [AudioProcessor.loop, h, List.takeWhile_cons]
    · have htw : (r :: rs).takeWhile (fun x => !(x.«end» > duration)) =
          r :: rs.takeWhile (fun x => !(x.«end» > duration)) := by
        rw [List.takeWhile_cons]
        simp [h]
      obtain ⟨ih1, ih2⟩ := ih (n + 1) (applyCb cb (n + 1) total r.speaker s)
      constructor
      · simp only [AudioProcessor.loop, if_neg h, ih1, htw]
        simp only [List.length_cons]
        omega
      · simp only [AudioProcessor.loop, if_neg h, ih2, htw, List.map_cons]

/-- The audio row loop under the canonical observing callback: the log
receives exactly one `(count, total, speaker)` entry per written row, in
write order, with counts continuing from `n`. -/
theorem loop_logging (duration : Rat) (total : Nat) :
    ∀ (rows : List Row) (n : Nat) (s : List (Nat × Nat × String)),
      (AudioProcessor.loop duration total (some loggingCallback) rows n s).2.2 =
        s ++ progressLog total (rows.takeWhile (fun r => !(r.«end» > duration))) n := by
  intro rows
  induction rows with
  | nil => intro n s; simp [AudioProcessor.loop, progressLog]
  | cons r rs ih =>
    intro n s
    by_cases h : r.«end» > duration
    · simp [AudioProcessor.loop, h, List.takeWhile_cons, progressLog]
    · have htw : (r :: rs).takeWhile (fun x => !(x.«end» > duration)) =
          r :: rs.takeWhile (fun x => !(x.«end» > duration)) := by
        rw [List.takeWhile_cons]
        simp [h]
      simp only [AudioProcessor.loop, if_neg h, htw, progressLog,
        ih (n + 1) (applyCb (some loggingCallback) (n + 1) total r.speaker s)]
      simp [applyCb, loggingCallback]

/-- The video row loop computed in closed form: every row is attempted,
the in-range rows are counted and written, the out-of-range rows are
skipped individually. -/
theorem segmentLoop_characterize (duration : Rat) :
    ∀ rows : List Row,
      (VideoProcessor.segmentLoop duration rows).1 =
        (rows.filter (fun x => !(x.«end» > duration))).length ∧
      (VideoProcessor.segmentLoop duration rows).2 =
        (rows.filter (fun x => !(x.«end» > duration))).map VideoProcessor.output_path := by
  intro rows
  induction rows with
  | nil => exact ⟨rfl, rfl⟩
  | cons r rs ih =>
    obtain ⟨ih1, ih2⟩ := ih
    by_cases h : r.«end» > duration
    · constructor
      · simp only [VideoProcessor.segmentLoop, VideoProcessor.process_segment, if_pos h,
          List.filter_cons]
        simpa [h] using ih1
      · simp only [VideoProcessor.segmentLoop, VideoProcessor.process_segment, if_pos h,
          List.filter_cons]
        simpa [h] using ih2
    · constructor
      · simp only [VideoProcessor.segmentLoop, VideoProcessor.process_segment, if_neg h,
          List.filter_cons]
        simpa [h] using ih1
      · simp only [VideoProcessor.segmentLoop, VideoProcessor.process_segment, if_neg h,
          List.filter_cons]
        simpa [h] using ih2

theorem uniqueFirstAux_mem {α : Type} [DecidableEq α] :
    ∀ (l seen : List α) (a : α), a ∈ uniqueFirstAux seen l ↔ (a ∈ l ∧ a ∉ seen) := by
  intro l
  induction l with
  | nil => intro seen a; simp [uniqueFirstAux]
  | cons x xs ih =>
    intro seen a
    by_cases hx : seen.contains x
    · rw [uniqueFirstAux, if_pos hx, ih]
      have hxs : x ∈ seen := by simpa using hx
      constructor
      · rintro ⟨h1, h2⟩
        exact ⟨by simp [h1], h2⟩
      · rintro ⟨h1, h2⟩
        rcases List.mem_cons.mp h1 with h1 | h1
        · subst h1; exact absurd hxs h2
        · exact ⟨h1, h2⟩
    · rw [uniqueFirstAux, if_neg hx]
      have hxs : x ∉ seen := by simpa using hx
      by_cases hax : a = x
      · subst hax
        simp [hxs]
      · simp only [List.mem_cons, hax, false_or, ih (x :: seen) a]

theorem uniqueFirstAux_nodup {α : Type} [DecidableEq α] :
    ∀ (l seen : List α), (uniqueFirstAux seen l).Nodup := by
  intro l
  induction l with
  | nil => intro seen; simp [uniqueFirstAux]
  | cons x xs ih =>
    intro seen
    by_cases hx : seen.contains x
    · rw [uniqueFirstAux, if_pos hx]
      exact ih seen
    · rw [uniqueFirstAux, if_neg hx]
      refine List.Nodup.cons ?_ (ih (x :: seen))
      intro hmem
      exact ((uniqueFirstAux_mem xs (x :: seen) x).mp hmem).2 (by simp)

theorem uniqueFirst_mem {α : Type} [DecidableEq α] {l : List α} {a : α} :
    a ∈ uniqueFirst l ↔ a ∈ l := by
  unfold uniqueFirst
  rw [uniqueFirstAux_mem]
  simp

theorem uniqueFirst_nodup {α : Type} [DecidableEq α] (l : List α) :
    (uniqueFirst l).Nodup :=
  uniqueFirstAux_nodup l []

/-- The zip of a run\x27s output directory, computed: one entry `[s, f]`
per distinct file `f` written into speaker folder `s`, grouped by folder
in folder-creation order. -/
theorem zip_outputTree (speakers : List String) (writes : List (String × String)) :
    FileHandler.create_zip_package (outputTreeOfRun speakers writes) =
      speakers.flatMap (fun s =>
        (uniqueFirst ((writes.filter (fun w => w.1 == s)).map Prod.snd)).map
          (fun f => [s, f])) := by
  unfold outputTreeOfRun
  rw [FileHandler.create_zip_package]
  simp only [List.map_nil, List.nil_append]
  induction speakers with
  | nil => rfl
  | cons s rest ih =>
    rw [List.map_cons, FileHandler.zipDirs, FileHandler.create_zip_package]
    simp only [List.map_nil, List.append_nil, List.flatMap_cons, ih]
    congr 1
    rw [show FileHandler.zipDirs ([] : List (String × FSTree)) = [] from rfl]
    rw [List.append_nil, List.map_map]
    rfl

theorem mem_zip_outputTree {speakers : List String} {writes : List (String × String)}
    {e : List String} :
    e ∈ FileHandler.create_zip_package (outputTreeOfRun speakers writes) ↔
      ∃ w, w ∈ writes ∧ w.1 ∈ speakers ∧ e = pathOfWrite w := by
  rw [zip_outputTree]
  simp only [List.mem_flatMap, List.mem_map, uniqueFirst_mem, List.mem_filter, pathOfWrite]
  constructor
  · rintro ⟨s, hs, f, ⟨w, ⟨hw, hbeq⟩, rfl⟩, rfl⟩
    have hws : w.1 = s := by simpa using hbeq
    exact ⟨w, hw, hws ▸ hs, by simp [hws]⟩
  · rintro ⟨w, hw, hs, rfl⟩
    exact ⟨w.1, hs, w.2, ⟨w, ⟨hw, by simp⟩, rfl⟩, rfl⟩

theorem nodup_zip_outputTree {speakers : List String} {writes : List (String × String)}
    (hs : speakers.Nodup) :
    (FileHandler.create_zip_package (outputTreeOfRun speakers writes)).Nodup := by
  rw [zip_outputTree]
  rw [List.nodup_flatMap]
  constructor
  · intro s _
    exact (uniqueFirst_nodup _).map (fun a b hab => by simpa using hab)
  · refine hs.imp ?_
    intro a b hab e he1 he2
    rw [List.mem_map] at he1 he2
    obtain ⟨f1, _, rfl⟩ := he1
    obtain ⟨f2, _, he⟩ := he2
    exact hab ((by simpa using he : b = a ∧ f2 = f1).1.symm)

theorem all_inRange {duration : Rat} {rows : List Row}
    (h : ∀ r ∈ rows, r.«end» ≤ duration) :
    ∀ x ∈ rows, (fun r : Row => !(r.«end» > duration)) x = true := by
  intro x hx
  simp [not_lt.mpr (h x hx)]

theorem uniqueFirst_length_eq_card {α : Type} [DecidableEq α] (l : List α) :
    (uniqueFirst l).length = l.toFinset.card := by
  have h1 : (uniqueFirst l).toFinset = l.toFinset := by
    ext a
    simp [uniqueFirst_mem]
  rw [← h1]
  exact (List.toFinset_card_of_nodup (uniqueFirst_nodup l)).symm

/-- C1, counterexample: the claim covers the video pipeline
(`VideoProcessor.process_segment` driven by the `process_video_file`
loop).  On the table `[(0,10,"a"), (0,1,"a")]` against a source of
duration 5, row 0 is the first out-of-range row (`k = 0`), yet the video
loop goes on to attempt row 1, writes its clip, and reports a processed
count of 1, not 0. -/
theorem C1_counterexample :
    firstOverIndex 5 [⟨0, 10, "a"⟩, ⟨0, 1, "a"⟩] = some 0 ∧
    (VideoProcessor.segmentLoop 5 [⟨0, 10, "a"⟩, ⟨0, 1, "a"⟩]).1 = 1 ∧
    (VideoProcessor.segmentLoop 5 [⟨0, 10, "a"⟩, ⟨0, 1, "a"⟩]).2 =
      [("a", "segment_0.00_1.00.mp4")] ∧
    (1 : Nat) ≠ 0 :=
  ⟨rfl, rfl, rfl, by decide⟩

/-- C1 (amended): the early-stop law holds for the audio pipeline — if
row `k` is the first whose `end` exceeds the duration, then
`process_all_segments` processes exactly the `k` rows before it and
writes nothing for any later row, whatever the callback; the video
pipeline instead skips each out-of-range row individually and continues,
so it attempts every row and its processed count and writes cover all
in-range rows of the whole table. -/
theorem C1_early_stop {σ : Type} (duration : Rat) (pre post : List Row) (r : Row)
    (cb : Option (Nat → Nat → String → σ → σ)) (s0 : σ)
    (hpre : ∀ x ∈ pre, x.«end» ≤ duration) (hr : r.«end» > duration) :
    firstOverIndex duration (pre ++ r :: post) = some pre.length ∧
    (AudioProcessor.process_all_segments duration (pre ++ r :: post) cb
      s0).result.processed_segments = pre.length ∧
    (AudioProcessor.process_all_segments duration (pre ++ r :: post) cb s0).writes
      = pre.map AudioProcessor.output_path ∧
    (VideoProcessor.segmentLoop duration (pre ++ r :: post)).1 =
      ((pre ++ r :: post).filter (fun x => !(x.«end» > duration))).length ∧
    (VideoProcessor.segmentLoop duration (pre ++ r :: post)).2 =
      ((pre ++ r :: post).filter (fun x => !(x.«end» > duration))).map
        VideoProcessor.output_path := by
  have htw : (pre ++ r :: post).takeWhile (fun x : Row => !(x.«end» > duration)) = pre :=
    takeWhile_append_of_over post (all_inRange hpre) (by simp [hr])
  have hloop := loop_characterize duration (pre ++ r :: post).length cb (pre ++ r :: post) 0 s0
  refine ⟨firstOverIndex_append post hpre hr, ?_, ?_,
    (segmentLoop_characterize duration (pre ++ r :: post)).1,
    (segmentLoop_characterize duration (pre ++ r :: post)).2⟩
  · have hps : (AudioProcessor.process_all_segments duration (pre ++ r :: post) cb
        s0).result.processed_segments
        = (AudioProcessor.loop duration (pre ++ r :: post).length cb (pre ++ r :: post)
            0 s0).1 := rfl
    rw [hps, hloop.1, htw]
    simp
  · have hw : (AudioProcessor.process_all_segments duration (pre ++ r :: post) cb s0).writes
        = (AudioProcessor.loop duration (pre ++ r :: post).length cb (pre ++ r :: post)
            0 s0).2.1 := rfl
    rw [hw, hloop.2, htw]

/-- Witness for C1: the spec\x27s scenario table against a source of
duration 7 — the first three rows are in range, row 3 (end 7.75) is the
stop point: the audio pipeline processes exactly 3 rows; the video
pipeline also counts 3 here (every in-range row of the whole table). -/
theorem C1_early_stop_witness :
    firstOverIndex 7
      ([⟨mkRat 3 100, mkRat 228 100, "therapist"⟩, ⟨mkRat 228 100, mkRat 409 100, "patient"⟩,
        ⟨mkRat 409 100, mkRat 550 100, "therapist"⟩] ++
        ⟨mkRat 550 100, mkRat 775 100, "patient"⟩ :: []) = some 3 ∧
    (AudioProcessor.process_all_segments 7
      ([⟨mkRat 3 100, mkRat 228 100, "therapist"⟩, ⟨mkRat 228 100, mkRat 409 100, "patient"⟩,
        ⟨mkRat 409 100, mkRat 550 100, "therapist"⟩] ++
        ⟨mkRat 550 100, mkRat 775 100, "patient"⟩ :: [])
      (none : Option (Nat → Nat → String → Unit → Unit)) ()).result.processed_segments = 3 ∧
    (AudioProcessor.process_all_segments 7
      ([⟨mkRat 3 100, mkRat 228 100, "therapist"⟩, ⟨mkRat 228 100, mkRat 409 100, "patient"⟩,
        ⟨mkRat 409 100, mkRat 550 100, "therapist"⟩] ++
        ⟨mkRat 550 100, mkRat 775 100, "patient"⟩ :: [])
      (none : Option (Nat → Nat → String → Unit → Unit)) ()).writes
      = [⟨mkRat 3 100, mkRat 228 100, "therapist"⟩, ⟨mkRat 228 100, mkRat 409 100, "patient"⟩,
         ⟨mkRat 409 100, mkRat 550 100, "therapist"⟩].map AudioProcessor.output_path ∧
    (VideoProcessor.segmentLoop 7
      (([⟨mkRat 3 100, mkRat 228 100, "therapist"⟩, ⟨mkRat 228 100, mkRat 409 100, "patient"⟩,
         ⟨mkRat 409 100, mkRat 550 100, "therapist"⟩] : List Row) ++
        (⟨mkRat 550 100, mkRat 775 100, "patient"⟩ : Row) :: [])).1 = 3 ∧
    (VideoProcessor.segmentLoop 7
      (([⟨mkRat 3 100, mkRat 228 100, "therapist"⟩, ⟨mkRat 228 100, mkRat 409 100, "patient"⟩,
         ⟨mkRat 409 100, mkRat 550 100, "therapist"⟩] : List Row) ++
        (⟨mkRat 550 100, mkRat 775 100, "patient"⟩ : Row) :: [])).2 =
      ([⟨mkRat 3 100, mkRat 228 100, "therapist"⟩, ⟨mkRat 228 100, mkRat 409 100, "patient"⟩,
        ⟨mkRat 409 100, mkRat 550 100, "therapist"⟩] : List Row).map
        VideoProcessor.output_path :=
  C1_early_stop 7
    ([⟨mkRat 3 100, mkRat 228 100, "therapist"⟩, ⟨mkRat 228 100, mkRat 409 100, "patient"⟩,
      ⟨mkRat 409 100, mkRat 550 100, "therapist"⟩] : List Row) ([] : List Row)
    (⟨mkRat 550 100, mkRat 775 100, "patient"⟩ : Row)
    (none : Option (Nat → Nat → String → Unit → Unit)) ()
    (by decide) (by decide)

/-- C8: progress-callback noninterference — running the audio pipeline
with any callback (over any state) yields the same `ProcessingResult` and
the same writes as running it with no callback, and the canonical
observing callback records exactly one `(count, total, speaker)` entry
per written row, in write order — so the callback fires only after each
successful write and never influences the run. -/
theorem C8_callback_noninterference {σ : Type} (duration : Rat) (rows : List Row)
    (cb : Nat → Nat → String → σ → σ) (s0 : σ) :
    (AudioProcessor.process_all_segments duration rows (some cb) s0).result =
      (AudioProcessor.process_all_segments duration rows
        (none : Option (Nat → Nat → String → Unit → Unit)) ()).result ∧
    (AudioProcessor.process_all_segments duration rows (some cb) s0).writes =
      (AudioProcessor.process_all_segments duration rows
        (none : Option (Nat → Nat → String → Unit → Unit)) ()).writes ∧
    (AudioProcessor.process_all_segments duration rows (some loggingCallback) []).cbState =
      progressLog rows.length (rows.takeWhile (fun r => !(r.«end» > duration))) 0 := by
  have h1 := loop_characterize duration rows.length (some cb) rows 0 s0
  have h2 := loop_characterize duration rows.length
    (none : Option (Nat → Nat → String → Unit → Unit)) rows 0 ()
  refine ⟨?_, ?_, ?_⟩
  · simp [AudioProcessor.process_all_segments, h1.1, h2.1]
  · simp [AudioProcessor.process_all_segments, h1.2, h2.2]
  · have h3 := loop_logging duration rows.length rows 0 []
    simpa [AudioProcessor.process_all_segments] using h3

/-- C2, counterexample: the claim counts one archive entry per row for
every valid table, "including tables containing duplicate rows".  Two
identical rows `(0, 1, "a")` are both processed (`processedCount = 2`),
but they write the same file `a/segment_0.00_1.00.wav` twice — the second
write overwrites the first — so the archive holds 1 entry, not 2. -/
theorem C2_counterexample :
    (AudioProcessor.process_all_segments 2 ([⟨0, 1, "a"⟩, ⟨0, 1, "a"⟩] : List Row)
      (none : Option (Nat → Nat → String → Unit → Unit)) ()).result.processed_segments = 2 ∧
    pipelineArchive 2 ([⟨0, 1, "a"⟩, ⟨0, 1, "a"⟩] : List Row)
      (none : Option (Nat → Nat → String → Unit → Unit)) () =
      [["a", "segment_0.00_1.00.wav"]] ∧
    ([["a", "segment_0.00_1.00.wav"]] : List (List String)).length ≠ 2 :=
  ⟨rfl, rfl, by decide⟩

/-- C2 (amended): for every table in which each row\x27s `end` is at most
the media duration, the pipeline processes all N rows
(`processedCount = N`); the archive then contains one entry per
*distinct* output path `speaker/segment_\x7bstart:.2f\x7d_\x7bend:.2f\x7d.wav`
(rows mapping to the same path collapse into one file), and its top-level
folders are exactly the unique speakers of the table. -/
theorem C2_full_processing {σ : Type} (duration : Rat) (rows : List Row)
    (cb : Option (Nat → Nat → String → σ → σ)) (s0 : σ)
    (h : ∀ r ∈ rows, r.«end» ≤ duration) :
    (AudioProcessor.process_all_segments duration rows cb s0).result.processed_segments
      = rows.length ∧
    (pipelineArchive duration rows cb s0).Perm
      ((uniqueFirst (rows.map AudioProcessor.output_path)).map pathOfWrite) ∧
    (uniqueFirst ((pipelineArchive duration rows cb s0).map (fun e => e.headD ""))).length
      = (uniqueFirst (rows.map Row.speaker)).length := by
  have htw : rows.takeWhile (fun r : Row => !(r.«end» > duration)) = rows :=
    takeWhile_eq_self_of_all (all_inRange h)
  have hloop := loop_characterize duration rows.length cb rows 0 s0
  have hwrites : (AudioProcessor.process_all_segments duration rows cb s0).writes
      = rows.map AudioProcessor.output_path := by
    have hw : (AudioProcessor.process_all_segments duration rows cb s0).writes
        = (AudioProcessor.loop duration rows.length cb rows 0 s0).2.1 := rfl
    rw [hw, hloop.2, htw]
  have hspeakers : (AudioProcessor.process_all_segments duration rows cb s0).speakerDirs
      = uniqueFirst (rows.map Row.speaker) := rfl
  have harch : pipelineArchive duration rows cb s0 =
      FileHandler.create_zip_package
        (outputTreeOfRun (uniqueFirst (rows.map Row.speaker))
          (rows.map AudioProcessor.output_path)) := by
    rw [pipelineArchive, hspeakers, hwrites]
  refine ⟨?_, ?_, ?_⟩
  · have hps : (AudioProcessor.process_all_segments duration rows cb
        s0).result.processed_segments
        = (AudioProcessor.loop duration rows.length cb rows 0 s0).1 := rfl
    rw [hps, hloop.1, htw]
    simp
  · rw [harch]
    have hn1 : (FileHandler.create_zip_package
        (outputTreeOfRun (uniqueFirst (rows.map Row.speaker))
          (rows.map AudioProcessor.output_path))).Nodup :=
      nodup_zip_outputTree (uniqueFirst_nodup _)
    have hinj : Function.Injective pathOfWrite := by
      intro a b hab
      simp only [pathOfWrite, List.cons.injEq, and_true] at hab
      exact Prod.ext hab.1 hab.2
    have hn2 : ((uniqueFirst (rows.map AudioProcessor.output_path)).map pathOfWrite).Nodup :=
      (uniqueFirst_nodup _).map hinj
    rw [List.perm_ext_iff_of_nodup hn1 hn2]
    intro e
    rw [mem_zip_outputTree]
    simp only [List.mem_map, uniqueFirst_mem]
    constructor
    · rintro ⟨w, hw, _, rfl⟩
      exact ⟨w, hw, rfl⟩
    · rintro ⟨w, hw, rfl⟩
      obtain ⟨rr, hrr, rfl⟩ := hw
      refine ⟨AudioProcessor.output_path rr, ⟨rr, hrr, rfl⟩, ?_, rfl⟩
      simpa using List.mem_map.mpr ⟨rr, hrr, rfl⟩
  · have hF : ((pipelineArchive duration rows cb s0).map (fun e => e.headD "")).toFinset
        = (rows.map Row.speaker).toFinset := by
      ext s
      simp only [List.mem_toFinset, List.mem_map]
      constructor
      · rintro ⟨e, he, rfl⟩
        rw [harch, mem_zip_outputTree] at he
        obtain ⟨w, hw, _, rfl⟩ := he
        obtain ⟨rr, hrr, rfl⟩ := List.mem_map.mp hw
        exact ⟨rr, hrr, rfl⟩
      · rintro ⟨rr, hrr, rfl⟩
        refine ⟨pathOfWrite (AudioProcessor.output_path rr), ?_, rfl⟩
        rw [harch, mem_zip_outputTree]
        exact ⟨AudioProcessor.output_path rr, List.mem_map.mpr ⟨rr, hrr, rfl⟩,
          uniqueFirst_mem.mpr (List.mem_map.mpr ⟨rr, hrr, rfl⟩), rfl⟩
    rw [uniqueFirst_length_eq_card, uniqueFirst_length_eq_card, hF]

/-- Witness for C2: a two-row table with distinct rows and two speakers,
fully in range of duration 2 — both rows processed, the archive holds one
entry per distinct path, under two folders. -/
theorem C2_full_processing_witness :
    (AudioProcessor.process_all_segments 2 ([⟨0, 1, "a"⟩, ⟨1, 2, "b"⟩] : List Row)
      (none : Option (Nat → Nat → String → Unit → Unit)) ()).result.processed_segments = 2 ∧
    (pipelineArchive 2 ([⟨0, 1, "a"⟩, ⟨1, 2, "b"⟩] : List Row)
      (none : Option (Nat → Nat → String → Unit → Unit)) ()).Perm
      ((uniqueFirst (([⟨0, 1, "a"⟩, ⟨1, 2, "b"⟩] : List Row).map
        AudioProcessor.output_path)).map pathOfWrite) ∧
    (uniqueFirst ((pipelineArchive 2 ([⟨0, 1, "a"⟩, ⟨1, 2, "b"⟩] : List Row)
      (none : Option (Nat → Nat → String → Unit → Unit)) ()).map
        (fun e => e.headD ""))).length
      = (uniqueFirst (([⟨0, 1, "a"⟩, ⟨1, 2, "b"⟩] : List Row).map Row.speaker)).length :=
  C2_full_processing 2 ([⟨0, 1, "a"⟩, ⟨1, 2, "b"⟩] : List Row)
    (none : Option (Nat → Nat → String → Unit → Unit)) () (by decide)

mutual

theorem mem_create_zip_package : ∀ (t : FSTree) (p : List String),
    p ∈ FileHandler.create_zip_package t ↔ t.HasFile p
  | .node fs ds, p => by
    rw [FileHandler.create_zip_package, List.mem_append]
    constructor
    · rintro (hmem | hmem)
      · rw [List.mem_map] at hmem
        obtain ⟨f, hf, rfl⟩ := hmem
        exact FSTree.HasFile.here hf
      · obtain ⟨d, t, hdt, q, rfl, hq⟩ := (mem_zipDirs ds p).mp hmem
        exact FSTree.HasFile.there hdt hq
    · intro hf
      cases hf with
      | here hmem => exact Or.inl (List.mem_map.mpr ⟨_, hmem, rfl⟩)
      | there hdt hq =>
        exact Or.inr ((mem_zipDirs ds _).mpr ⟨_, _, hdt, _, rfl, hq⟩)

theorem mem_zipDirs : ∀ (ds : List (String × FSTree)) (p : List String),
    p ∈ FileHandler.zipDirs ds ↔
      ∃ d t, (d, t) ∈ ds ∧ ∃ q, p = d :: q ∧ t.HasFile q
  | [], p => by simp [FileHandler.zipDirs]
  | (d, t) :: rest, p => by
    rw [FileHandler.zipDirs, List.mem_append]
    constructor
    · rintro (hmem | hmem)
      · rw [List.mem_map] at hmem
        obtain ⟨q, hq, rfl⟩ := hmem
        exact ⟨d, t, by simp, q, rfl, (mem_create_zip_package t q).mp hq⟩
      · obtain ⟨d1, t1, hdt, q, rfl, hq⟩ := (mem_zipDirs rest p).mp hmem
        exact ⟨d1, t1, by simp [hdt], q, rfl, hq⟩
    · rintro ⟨d1, t1, hdt, q, rfl, hq⟩
      rcases List.mem_cons.mp hdt with heq | hdt1
      · cases heq
        exact Or.inl (List.mem_map.mpr ⟨q, (mem_create_zip_package _ q).mpr hq, rfl⟩)
      · exact Or.inr ((mem_zipDirs rest _).mpr ⟨d1, t1, hdt1, q, rfl, hq⟩)

end

theorem hasFile_ne_nil {t : FSTree} {p : List String} (h : t.HasFile p) : p ≠ [] := by
  cases h <;> simp

mutual

theorem nodup_create_zip_package : ∀ (t : FSTree), t.WF →
    (FileHandler.create_zip_package t).Nodup
  | .node fs ds, hwf => by
    obtain ⟨hnames, hsub⟩ :=
      (by cases hwf with
        | node h1 h2 => exact ⟨h1, h2⟩ :
        (fs ++ ds.map Prod.fst).Nodup ∧ ∀ x ∈ ds, FSTree.WF x.2)
    rw [FileHandler.create_zip_package]
    apply List.Nodup.append
    · exact hnames.of_append_left.map (fun a b hab => by simpa using hab)
    · exact nodup_zipDirs ds hnames.of_append_right hsub
    · intro e he1 he2
      rw [List.mem_map] at he1
      obtain ⟨f, _, rfl⟩ := he1
      obtain ⟨d, t1, _, q, heq, hq⟩ := (mem_zipDirs ds [f]).mp he2
      have hqnil : q = [] := by
        injection heq with _ h2
        exact h2.symm
      exact hasFile_ne_nil hq (by rw [hqnil])

theorem nodup_zipDirs : ∀ (ds : List (String × FSTree)),
    (ds.map Prod.fst).Nodup → (∀ x ∈ ds, FSTree.WF x.2) →
    (FileHandler.zipDirs ds).Nodup
  | [], _, _ => by rw [FileHandler.zipDirs]; exact List.nodup_nil
  | (d, t) :: rest, hnames, hsub => by
    rw [FileHandler.zipDirs]
    have hnames' : (d :: rest.map Prod.fst).Nodup := hnames
    apply List.Nodup.append
    · exact (nodup_create_zip_package t (hsub (d, t) (by simp))).map
        (fun a b hab => by injection hab with h1 h2)
    · exact nodup_zipDirs rest (List.nodup_cons.mp hnames').2
        (fun x hx => hsub x (by simp [hx]))
    · intro e he1 he2
      rw [List.mem_map] at he1
      obtain ⟨q, _, rfl⟩ := he1
      obtain ⟨d1, t1, hdt, q1, heq, _⟩ := (mem_zipDirs rest (d :: q)).mp he2
      have hd : d = d1 := by injection heq with h1 h2
      have hd1 : d1 ∈ rest.map Prod.fst := List.mem_map.mpr ⟨(d1, t1), hdt, rfl⟩
      exact (List.nodup_cons.mp hnames').1 (hd ▸ hd1)

end

/-- C7: archive round-trip — for every well-formed output tree (distinct
entry names inside each directory, as a filesystem guarantees), the zip
built by `FileHandler.create_zip_package` contains an entry exactly for
each regular file under the root, named by its path relative to the root,
with no duplicate and no extra entries. -/
theorem C7_archive_round_trip (t : FSTree) (hwf : t.WF) :
    (∀ p, p ∈ FileHandler.create_zip_package t ↔ t.HasFile p) ∧
    (FileHandler.create_zip_package t).Nodup :=
  ⟨fun p => mem_create_zip_package t p, nodup_create_zip_package t hwf⟩

/-- Witness for C7: a small two-speaker tree with a root file — the zip
lists exactly its three files, each once. -/
theorem C7_archive_round_trip_witness :
    ["a", "f1"] ∈ FileHandler.create_zip_package
      (.node ["readme"] [("a", .node ["f1"] []), ("b", .node ["f2"] [])]) ∧
    (FileHandler.create_zip_package
      (.node ["readme"] [("a", .node ["f1"] []), ("b", .node ["f2"] [])])).Nodup := by
  have hwf : FSTree.WF (.node ["readme"] [("a", .node ["f1"] []), ("b", .node ["f2"] [])]) := by
    refine FSTree.WF.node (by decide) ?_
    intro p hp
    rcases List.mem_cons.mp hp with rfl | hp
    · exact FSTree.WF.node (by decide) (by intro x hx; cases hx)
    rcases List.mem_cons.mp hp with rfl | hp
    · exact FSTree.WF.node (by decide) (by intro x hx; cases hx)
    cases hp
  have h := C7_archive_round_trip
    (.node ["readme"] [("a", .node ["f1"] []), ("b", .node ["f2"] [])]) hwf
  exact ⟨(h.1 ["a", "f1"]).mpr
      (FSTree.HasFile.there (List.mem_cons_self _ _)
        (FSTree.HasFile.here (List.mem_cons_self "f1" []))),
    h.2⟩

theorem audio_run_validate_error {df : DataFrame} {e : String} (mediaOk : Bool)
    (duration : Rat) (hv : DiarizationData.validate df = .error e) :
    AudioProcessingService.process_audio_with_diarization true df mediaOk duration =
      { events := [Ev.saveMedia, Ev.parseCsv, Ev.cleanup], outcome := .error e } := by
  unfold AudioProcessingService.process_audio_with_diarization AudioProcessingService.tryBody
  rw [hv]
  rfl

theorem audio_run_validate_errs {df : DataFrame} {errs : List String} (mediaOk : Bool)
    (duration : Rat) (hv : DiarizationData.validate df = .ok errs)
    (hne : errs.isEmpty = false) :
    AudioProcessingService.process_audio_with_diarization true df mediaOk duration =
      { events := [Ev.saveMedia, Ev.parseCsv, Ev.cleanup],
        outcome := .error ("Invalid diarization data: " ++ String.intercalate "; " errs) } := by
  cases errs with
  | nil => simp at hne
  | cons a l =>
    unfold AudioProcessingService.process_audio_with_diarization AudioProcessingService.tryBody
    rw [hv]
    rfl

/-- C5, counterexample: the claim says a batch with an invalid table
(e.g. one containing the row `(5, 3, "x")`) surfaces the validation error
without ever opening the media.  The video batch
(`process_video_file`) loads the video *before* validating the CSV, so
its event trace contains the media-open step even though validation
fails. -/
theorem C5_counterexample :
    validationFails ⟨["start", "end", "speaker"], [[.num 5, .num 3, .str "x"]]⟩ = true ∧
    (VideoProcessor.process_video_file true
      ⟨["start", "end", "speaker"], [[.num 5, .num 3, .str "x"]]⟩ true 10).2 = false ∧
    Ev.openMedia ∈ (VideoProcessor.process_video_file true
      ⟨["start", "end", "speaker"], [[.num 5, .num 3, .str "x"]]⟩ true 10).1 :=
  ⟨rfl, rfl, by decide⟩

/-- C5 (amended): the audio orchestration detects a validation failure
before any media I/O — it raises without opening the audio and without
writing any segment; the video orchestration also writes nothing and
fails when validation fails, but it has already loaded the video before
validating. -/
theorem C5_validation_before_media (df : DataFrame) (audioLoadOk videoLoadOk : Bool)
    (duration : Rat) :
    (validationFails df = true →
      (∃ e, (AudioProcessingService.process_audio_with_diarization true df audioLoadOk
        duration).outcome = .error e) ∧
      Ev.openMedia ∉ (AudioProcessingService.process_audio_with_diarization true df
        audioLoadOk duration).events ∧
      Ev.writeSegment ∉ (AudioProcessingService.process_audio_with_diarization true df
        audioLoadOk duration).events) ∧
    ((VideoProcessor.validate_diarization_data df).1 = false →
      (VideoProcessor.process_video_file true df videoLoadOk duration).2 = false ∧
      Ev.writeSegment ∉ (VideoProcessor.process_video_file true df videoLoadOk duration).1 ∧
      Ev.openMedia ∈ (VideoProcessor.process_video_file true df videoLoadOk duration).1) := by
  constructor
  · intro hvf
    unfold validationFails at hvf
    cases hv : DiarizationData.validate df with
    | error e =>
      rw [audio_run_validate_error audioLoadOk duration hv]
      refine ⟨⟨e, rfl⟩, ?_, ?_⟩
      · exact (by decide : Ev.openMedia ∉ [Ev.saveMedia, Ev.parseCsv, Ev.cleanup])
      · exact (by decide : Ev.writeSegment ∉ [Ev.saveMedia, Ev.parseCsv, Ev.cleanup])
    | ok errs =>
      simp only [hv] at hvf
      have hne : errs.isEmpty = false := by simpa using hvf
      rw [audio_run_validate_errs audioLoadOk duration hv hne]
      refine ⟨⟨_, rfl⟩, ?_, ?_⟩
      · exact (by decide : Ev.openMedia ∉ [Ev.saveMedia, Ev.parseCsv, Ev.cleanup])
      · exact (by decide : Ev.writeSegment ∉ [Ev.saveMedia, Ev.parseCsv, Ev.cleanup])
  · intro hvid
    cases videoLoadOk with
    | false =>
      refine ⟨rfl, ?_, ?_⟩
      · exact (by decide : Ev.writeSegment ∉
          [Ev.saveMedia, Ev.openMedia, Ev.removeTempDir, Ev.closeVideo])
      · exact (by decide : Ev.openMedia ∈
          [Ev.saveMedia, Ev.openMedia, Ev.removeTempDir, Ev.closeVideo])
    | true =>
      have hrun : VideoProcessor.process_video_file true df true duration =
          ([Ev.saveMedia, Ev.openMedia, Ev.parseCsv, Ev.removeTempDir, Ev.closeVideo],
            false) := by
        unfold VideoProcessor.process_video_file
        rw [hvid]
        rfl
      rw [hrun]
      refine ⟨rfl, ?_, ?_⟩
      · exact (by decide : Ev.writeSegment ∉
          [Ev.saveMedia, Ev.openMedia, Ev.parseCsv, Ev.removeTempDir, Ev.closeVideo])
      · exact (by decide : Ev.openMedia ∈
          [Ev.saveMedia, Ev.openMedia, Ev.parseCsv, Ev.removeTempDir, Ev.closeVideo])

/-- Witness for C5: the spec\x27s `(5, 3, "x")` scenario — the audio
service raises before opening the audio; the video batch fails but its
trace shows the video was opened first. -/
theorem C5_validation_before_media_witness :
    ((∃ e, (AudioProcessingService.process_audio_with_diarization true
      ⟨["start", "end", "speaker"], [[.num 5, .num 3, .str "x"]]⟩ true 10).outcome =
        .error e) ∧
      Ev.openMedia ∉ (AudioProcessingService.process_audio_with_diarization true
        ⟨["start", "end", "speaker"], [[.num 5, .num 3, .str "x"]]⟩ true 10).events ∧
      Ev.writeSegment ∉ (AudioProcessingService.process_audio_with_diarization true
        ⟨["start", "end", "speaker"], [[.num 5, .num 3, .str "x"]]⟩ true 10).events) ∧
    ((VideoProcessor.process_video_file true
        ⟨["start", "end", "speaker"], [[.num 5, .num 3, .str "x"]]⟩ true 10).2 = false ∧
      Ev.writeSegment ∉ (VideoProcessor.process_video_file true
        ⟨["start", "end", "speaker"], [[.num 5, .num 3, .str "x"]]⟩ true 10).1 ∧
      Ev.openMedia ∈ (VideoProcessor.process_video_file true
        ⟨["start", "end", "speaker"], [[.num 5, .num 3, .str "x"]]⟩ true 10).1) :=
  ⟨(C5_validation_before_media ⟨["start", "end", "speaker"], [[.num 5, .num 3, .str "x"]]⟩
      true true 10).1 (by rfl),
   (C5_validation_before_media ⟨["start", "end", "speaker"], [[.num 5, .num 3, .str "x"]]⟩
      true true 10).2 (by rfl)⟩

/-- C6, counterexample: the claim says temporary state is released on
every exit path of `process_audio_with_diarization`, including success.
A successful batch over the one-row table `(0, 1, "a")` returns its
result without any cleanup step — the `cleanup()` of the audio service
runs only in its `except` branch (or when the caller invokes the separate
`cleanup()` method). -/
theorem C6_counterexample :
    (AudioProcessingService.process_audio_with_diarization true
      ⟨["start", "end", "speaker"], [[.num 0, .num 1, .str "a"]]⟩ true 2).outcome =
      .ok ⟨1, 1, ["a"]⟩ ∧
    Ev.cleanup ∉ (AudioProcessingService.process_audio_with_diarization true
      ⟨["start", "end", "speaker"], [[.num 0, .num 1, .str "a"]]⟩ true 2).events :=
  ⟨rfl, by decide⟩

theorem cleanup_not_in_tryBody (csvOk : Bool) (df : DataFrame) (mediaOk : Bool)
    (duration : Rat) :
    Ev.cleanup ∉ (AudioProcessingService.tryBody csvOk df mediaOk duration).events := by
  unfold AudioProcessingService.tryBody
  repeat' split
  all_goals simp [List.mem_append, List.mem_replicate]

/-- C6 (amended): the audio orchestration releases its temporary state
exactly on the failing exit paths (the `except` branch), not on the
successful one — a successful batch performs no cleanup until the
caller\x27s separate `cleanup()` call; the video orchestration, by
contrast, removes its temporary directory and closes the video on every
exit path. -/
theorem C6_cleanup_paths (csvOk : Bool) (df : DataFrame) (mediaOk : Bool) (duration : Rat) :
    (∀ e, (AudioProcessingService.process_audio_with_diarization csvOk df mediaOk
        duration).outcome = .error e →
      Ev.cleanup ∈ (AudioProcessingService.process_audio_with_diarization csvOk df mediaOk
        duration).events) ∧
    (∀ r, (AudioProcessingService.process_audio_with_diarization csvOk df mediaOk
        duration).outcome = .ok r →
      Ev.cleanup ∉ (AudioProcessingService.process_audio_with_diarization csvOk df mediaOk
        duration).events) ∧
    Ev.removeTempDir ∈ (VideoProcessor.process_video_file csvOk df mediaOk duration).1 ∧
    Ev.closeVideo ∈ (VideoProcessor.process_video_file csvOk df mediaOk duration).1 := by
  refine ⟨?_, ?_, ?_, ?_⟩
  · intro e he
    cases hb : (AudioProcessingService.tryBody csvOk df mediaOk duration).outcome with
    | error e1 =>
      have hev : (AudioProcessingService.process_audio_with_diarization csvOk df mediaOk
          duration).events =
          (AudioProcessingService.tryBody csvOk df mediaOk duration).events
            ++ [Ev.cleanup] := by
        unfold AudioProcessingService.process_audio_with_diarization
        rw [hb]
      rw [hev]
      simp
    | ok r1 =>
      exfalso
      unfold AudioProcessingService.process_audio_with_diarization at he
      rw [hb] at he
      simp at he
  · intro r hr
    cases hb : (AudioProcessingService.tryBody csvOk df mediaOk duration).outcome with
    | error e1 =>
      exfalso
      unfold AudioProcessingService.process_audio_with_diarization at hr
      rw [hb] at hr
      simp at hr
    | ok r1 =>
      have hev : (AudioProcessingService.process_audio_with_diarization csvOk df mediaOk
          duration).events =
          (AudioProcessingService.tryBody csvOk df mediaOk duration).events := by
        unfold AudioProcessingService.process_audio_with_diarization
        rw [hb]
      rw [hev]
      exact cleanup_not_in_tryBody csvOk df mediaOk duration
  · unfold VideoProcessor.process_video_file
    repeat' split
    all_goals simp [List.mem_append, List.mem_replicate]
  · unfold VideoProcessor.process_video_file
    repeat' split
    all_goals simp [List.mem_append, List.mem_replicate]

/-- Witness for C6: a failing batch (unreadable CSV) cleans up; the same
inputs through the video path remove the temporary directory and close
the video. -/
theorem C6_cleanup_paths_witness :
    Ev.cleanup ∈ (AudioProcessingService.process_audio_with_diarization false
      ⟨["start", "end", "speaker"], []⟩ true 2).events ∧
    Ev.removeTempDir ∈ (VideoProcessor.process_video_file false
      ⟨["start", "end", "speaker"], []⟩ true 2).1 :=
  ⟨(C6_cleanup_paths false ⟨["start", "end", "speaker"], []⟩ true 2).1
      "Failed to read CSV file" (by rfl),
   (C6_cleanup_paths false ⟨["start", "end", "speaker"], []⟩ true 2).2.2.1⟩

end Diarization
